import Mathlib

/-!
Verification of the task API layer in `glance/api/v2/tasks.py`.

The file embeds the request deserializer, the response serializer and the
`TasksController` orchestration as Lean functions.  Collaborators that live
outside the source slice (the domain task factory, the task repository, the
domain task transitions, the schema filter and the timestamp renderer) are
modelled from the specification; each such definition carries a doc comment
saying so.

JSON bodies are modelled as association lists from string keys to string
values: the deserializer only moves values around, never inspects their
structure, so this restriction is faithful for the properties proved here.
-/

set_option autoImplicit false

namespace Glance

/-- The error taxonomy visible in the controller and deserializer:
`httpBadRequest`/`httpForbidden` are the webob transport errors raised in
`tasks.py`; `forbidden`, `validationError`, `notFound`,
`invalidStateTransition` and `conflict` are the domain errors of
`glance.common.exception` as described by the spec. -/
inductive Err where
  | httpBadRequest (explanation : String)
  | httpForbidden (explanation : String)
  | forbidden (msg : String)
  | validationError (msg : String)
  | notFound (msg : String)
  | invalidStateTransition (msg : String)
  | conflict (msg : String)
deriving DecidableEq, Repr

/-- JSON object bodies, as association lists of string keys and values. -/
abbrev Body := List (String × String)

/-- Source `RequestDeserializer._disallowed_properties`. -/
def disallowed_properties : List String := ["direct_url", "self", "file", "schema"]

/-- Source `RequestDeserializer._base_properties`. -/
def base_properties : List String := ["type", "status", "owner"]

/-- Source `RequestDeserializer._get_request_body`: the parsed request either holds a
body or not; with no body the deserializer raises
`HTTPBadRequest("Body expected in request.")`. -/
def get_request_body (parsed : Option Body) : Except Err Body :=
  match parsed with
  | none => .error (.httpBadRequest "Body expected in request.")
  | some b => .ok b

/-- Source `RequestDeserializer._check_allowed`: iterate over the disallowed
properties in order and raise `HTTPForbidden` at the first one present in the
body. -/
def check_allowed (task : Body) : Except Err Unit :=
  match disallowed_properties.find? (fun k => (task.lookup k).isSome) with
  | some k => .error (.httpForbidden ("Attribute \x27" ++ k ++ "\x27 is read-only."))
  | none => .ok ()

/-- Source `RequestDeserializer.create`: fetch the body, check the disallowed keys,
then pop each of `type`, `status`, `owner` (when present) into the task
mapping handed to the controller; all other keys are dropped. -/
def deserializer_create (parsed : Option Body) : Except Err Body := do
  let body ← get_request_body parsed
  let _ ← check_allowed body
  pure (base_properties.filterMap fun k => (body.lookup k).map fun v => (k, v))

/-! ## Domain model (collaborators modelled from the spec) -/

/-- Task statuses: the closed enumeration of the spec and of `_TASK_SCHEMA`. -/
inductive TaskStatus where
  | queued
  | processing
  | success
  | failure
deriving DecidableEq, Repr

/-- String rendering of a status, as it appears in the schema enumeration. -/
def TaskStatus.str : TaskStatus → String
  | .queued => "queued"
  | .processing => "processing"
  | .success => "success"
  | .failure => "failure"

/-- The task entity record, with fields as in the spec's data model.
Identifiers are modelled as naturals drawn from a fresh-id counter and
timestamps as naturals. -/
structure Task where
  task_id : Nat
  type : String
  status : TaskStatus
  owner : String
  message : String
  created_at : Nat
  updated_at : Nat
deriving DecidableEq, Repr

/-- The acting principal's context: its owner identifier plus the policy
collaborator's verdicts, `none` meaning the policy allows the action and
`some msg` a denial carrying the `Forbidden` exception's message. -/
structure Ctx where
  owner : String
  createDenial : Option String
  addDenial : Option String
deriving DecidableEq, Repr

/-- The visible service state: the repository's backing store, the fresh-id
counter of the id generator and the current clock reading. -/
structure SvcState where
  repo : List Task
  nextId : Nat
  now : Nat
deriving DecidableEq, Repr

/-- The closed task-type enumeration of the spec and of `_TASK_SCHEMA`. -/
def task_types : List String := ["import", "export", "clone"]

/-- Modelled from the spec: the domain task factory `new_task` (missing from
the source slice).  Policy is consulted first (`Forbidden` on denial); `type`
must belong to the closed enumeration, otherwise `ValidationError`; a
client-supplied `status` is ignored; `owner` defaults to the acting
principal; the output is a task with a freshly generated id,
`created_at = updated_at = now` and `status = queued`. -/
def new_task (ctx : Ctx) (m : Body) (st : SvcState) : Except Err Task :=
  match ctx.createDenial with
  | some msg => .error (.forbidden msg)
  | none =>
    match m.lookup "type" with
    | some ty =>
      if ty ∈ task_types then
        .ok { task_id := st.nextId, type := ty, status := .queued,
              owner := (m.lookup "owner").getD ctx.owner,
              message := "", created_at := st.now, updated_at := st.now }
      else .error (.validationError ("Unknown task type " ++ ty))
    | none => .error (.validationError "Task type is required")

/-- Modelled from the spec: `TaskRepository.add` (missing from the source
slice).  Fails with `Forbidden` when the principal lacks create rights and
with `Conflict` when the id already exists; otherwise appends the record and
advances the fresh-id counter. -/
def repo_add (ctx : Ctx) (t : Task) (st : SvcState) : Except Err SvcState :=
  match ctx.addDenial with
  | some msg => .error (.forbidden msg)
  | none =>
    if st.repo.any (fun r => r.task_id == t.task_id) then
      .error (.conflict "task id already exists")
    else
      .ok { st with repo := st.repo ++ [t], nextId := st.nextId + 1 }

/-- Modelled from the spec: `TaskRepository.get` (missing from the source
slice).  Returns the record with the given id or fails with `NotFound`. -/
def repo_get (st : SvcState) (task_id : Nat) : Except Err Task :=
  match st.repo.find? (fun r => r.task_id == task_id) with
  | some t => .ok t
  | none => .error (.notFound "task not found")

/-- Modelled from the spec: `TaskRepository.save` (missing from the source
slice).  Persists a mutated task by replacing the record with its id. -/
def repo_save (st : SvcState) (t : Task) : SvcState :=
  { st with repo := st.repo.map fun r => if r.task_id == t.task_id then t else r }

/-- Modelled from the spec: `Task.run` (missing from the source slice).
Valid only from `queued`: transitions to `processing`, clears `message` and
refreshes `updated_at`; from any other status it fails with
`InvalidStateTransition` before any side effect. -/
def task_run (now : Nat) (t : Task) : Except Err Task :=
  if t.status = .queued then
    .ok { t with status := .processing, message := "", updated_at := now }
  else .error (.invalidStateTransition "run is only valid from queued")

/-- Modelled from the spec: `Task.remove`, the cancellation transition
invoked by the controller's `kill` (missing from the source slice).  Per the
spec's design notes, cancellation is a status transition to the terminal
`failure` with a cancellation message, not a deletion; on a terminal task it
fails with `InvalidStateTransition`. -/
def task_remove (now : Nat) (t : Task) : Except Err Task :=
  if t.status = .queued ∨ t.status = .processing then
    .ok { t with status := .failure, message := "task cancelled", updated_at := now }
  else .error (.invalidStateTransition "cancel is only valid from a non-terminal status")

/-! ## Controller (`TasksController` in the source) -/

/-- The `except exception.Forbidden` clause of `TasksController.create`:
a domain `Forbidden` is re-raised as `HTTPForbidden` whose explanation is
`unicode(e)`, the exception's own message; every other error propagates
unchanged. -/
def catch_forbidden (e : Err) : Err :=
  match e with
  | .forbidden msg => .httpForbidden msg
  | e => e

/-- Source `TasksController.create`: factory `new_task`, then `repo.add`, then
`task.run()`, wrapped in a handler turning `Forbidden` into `HTTPForbidden`.
The repository owns the task once added, so `run()`'s in-place mutation is
visible through the store (modelled by `repo_save` after the transition). -/
def controller_create (ctx : Ctx) (m : Body) (st : SvcState) :
    Except Err Task × SvcState :=
  match new_task ctx m st with
  | .error e => (.error (catch_forbidden e), st)
  | .ok t =>
    match repo_add ctx t st with
    | .error e => (.error (catch_forbidden e), st)
    | .ok st1 =>
      match task_run st1.now t with
      | .error e => (.error (catch_forbidden e), st1)
      | .ok t2 => (.ok t2, repo_save st1 t2)

/-- Source `TasksController.kill`: `repo.get`, then the cancellation transition on
the task, then `repo.save`, returning the mutated task; there is no handler,
so `NotFound` from `get` (and any transition error) propagates as-is. -/
def controller_kill (st : SvcState) (task_id : Nat) :
    Except Err Task × SvcState :=
  match repo_get st task_id with
  | .error e => (.error e, st)
  | .ok t =>
    match task_remove st.now t with
    | .error e => (.error e, st)
    | .ok t2 => (.ok t2, repo_save st t2)

/-- The create pipeline as the transport wires it: deserialization first,
then the controller with the deserialized task mapping. -/
def api_create (ctx : Ctx) (parsed : Option Body) (st : SvcState) :
    Except Err Task × SvcState :=
  match deserializer_create parsed with
  | .error e => (.error e, st)
  | .ok m => controller_create ctx m st

/-! ## Response serialization (`ResponseSerializer` in the source) -/

/-- Modelled from the spec: `timeutils.isotime` (missing from the source
slice), the ISO-8601 rendering of a timestamp consumed by the view
contract. -/
def isotime (t : Nat) : String := "1970-01-01T00:00:" ++ toString t ++ "Z"

/-- Modelled from the spec: `glance.schema.Schema.filter` (missing from the
source slice).  The spec's view contract states that a task renders to a
record with fields `id, type, status, owner, message, created_at,
updated_at`; the filter therefore passes the formatted view through. -/
def schema_filter (view : List (String × String)) : List (String × String) := view

/-- The attribute list iterated over by `ResponseSerializer._format_task`. -/
def task_attributes : List String := ["type", "status", "owner", "message"]

/-- The `getattr(task, key)` dynamic attribute access of `_format_task`,
restricted to the attributes the serializer reads. -/
def task_attr (t : Task) : String → String
  | "type" => t.type
  | "status" => t.status.str
  | "owner" => t.owner
  | "message" => t.message
  | _ => ""

/-- Source `ResponseSerializer._format_task`: copy `type, status, owner, message`
off the task, add `id`, the ISO-8601 `created_at`/`updated_at` and the
`schema` link, then run the view through the schema filter. -/
def format_task (t : Task) : List (String × String) :=
  schema_filter
    ((task_attributes.map fun k => (k, task_attr t k)) ++
      [("id", toString t.task_id),
       ("created_at", isotime t.created_at),
       ("updated_at", isotime t.updated_at),
       ("schema", "/v2/schemas/task")])

/-- The slice of the webob response object the serializer writes. -/
structure HttpResponse where
  status_int : Nat
  unicode_body : String
  content_type : String
deriving DecidableEq, Repr

/-- Rendering `json.dumps` on a flat string-valued JSON object. -/
def json_dumps (m : List (String × String)) : String :=
  "\x7b" ++
    String.intercalate ", "
      (m.map fun p => "\x22" ++ p.1 ++ "\x22: \x22" ++ p.2 ++ "\x22") ++
  "\x7d"

/-- Source `ResponseSerializer.get`: render the formatted task as the JSON body and
set the content type. -/
def serializer_get (resp : HttpResponse) (t : Task) : HttpResponse :=
  { resp with unicode_body := json_dumps (format_task t),
              content_type := "application/json" }

/-- Source `ResponseSerializer.create`: set the status code to 201, then delegate to
`get` for the body. -/
def serializer_create (resp : HttpResponse) (t : Task) : HttpResponse :=
  serializer_get { resp with status_int := 201 } t

/-! ## Helper lemmas -/

/-- Unfolding of `deserializer_create` on a request with a body: it is the
`_check_allowed` scan followed by the `_base_properties` pop loop. -/
theorem deserializer_create_some (body : Body) :
    deserializer_create (some body) =
      match disallowed_properties.find? (fun k => (body.lookup k).isSome) with
      | some k => .error (.httpForbidden ("Attribute \x27" ++ k ++ "\x27 is read-only."))
      | none => .ok (base_properties.filterMap fun k => (body.lookup k).map fun v => (k, v)) := by
  cases hfind : disallowed_properties.find? (fun k => (body.lookup k).isSome) <;>
    simp [deserializer_create, get_request_body, check_allowed, hfind, Bind.bind, Except.bind,
      Pure.pure, Except.pure]

/-- A lookup misses when no entry of the association list carries the key. -/
theorem lookup_eq_none_of_keys (m : Body) (k : String)
    (h : ∀ p ∈ m, p.1 ≠ k) : m.lookup k = none := by
  induction m with
  | nil => rfl
  | cons p rest ih =>
    have hp : p.1 ≠ k := h p (List.mem_cons_self p rest)
    have hkp : (k == p.1) = false := beq_eq_false_iff_ne.mpr fun hkk => hp hkk.symm
    have hrest : rest.lookup k = none :=
      ih fun q hq => h q (List.mem_cons_of_mem p hq)
    simp [List.lookup, hkp, hrest]

/-- Dropping the entries with one key leaves lookups of every other key
unchanged. -/
theorem lookup_filter_ne (m : Body) (bad k : String) (hk : k ≠ bad) :
    (m.filter fun p => p.1 != bad).lookup k = m.lookup k := by
  induction m with
  | nil => rfl
  | cons p rest ih =>
    by_cases hp : p.1 = bad
    · have h1 : (p.1 != bad) = false := by simp [hp]
      have hkp : (k == p.1) = false := beq_eq_false_iff_ne.mpr (by rw [hp]; exact hk)
      simp [List.filter, h1, List.lookup, hkp, ih]
    · have h1 : (p.1 != bad) = true := by simp [hp]
      cases hkk : (k == p.1) <;> simp [List.filter, h1, List.lookup, hkk, ih]

/-- A task the factory hands back is freshly stamped: `queued` status, the
generator's next id, empty message and `created_at = updated_at = now`. -/
theorem new_task_ok (ctx : Ctx) (m : Body) (st : SvcState) (t : Task)
    (h : new_task ctx m st = .ok t) :
    t.status = .queued ∧ t.task_id = st.nextId ∧ t.message = "" ∧
      t.created_at = st.now ∧ t.updated_at = st.now := by
  cases hd : ctx.createDenial with
  | some msg => simp [new_task, hd] at h
  | none =>
    cases hty : m.lookup "type" with
    | none => simp [new_task, hd, hty] at h
    | some ty =>
      by_cases hmem : ty ∈ task_types
      · simp [new_task, hd, hty, hmem] at h
        simp [← h]
      · simp [new_task, hd, hty, hmem] at h

/-- The `except Forbidden` clause never lets a raw domain `Forbidden`
escape: it is rewritten to `HTTPForbidden` and all else is untouched. -/
theorem catch_forbidden_ne (e : Err) (msg : String) :
    catch_forbidden e ≠ .forbidden msg := by
  cases e <;> simp [catch_forbidden]

/-- Saving a record whose id is absent from a store leaves the store
unchanged. -/
theorem map_replace_of_not_mem (l : List Task) (t2 : Task)
    (h : l.any (fun r => r.task_id == t2.task_id) = false) :
    (l.map fun r => if r.task_id == t2.task_id then t2 else r) = l := by
  induction l with
  | nil => rfl
  | cons r rest ih =>
    rw [List.any_cons, Bool.or_eq_false_iff] at h
    have hr : ¬(r.task_id == t2.task_id) = true := by simp [h.1]
    rw [List.map_cons, if_neg hr, ih h.2]

/-- A repository `get` that succeeds returns a stored record bearing the
requested id. -/
theorem repo_get_ok (st : SvcState) (task_id : Nat) (t : Task)
    (h : repo_get st task_id = .ok t) :
    t ∈ st.repo ∧ t.task_id = task_id := by
  cases hfind : st.repo.find? (fun r => r.task_id == task_id) with
  | none => simp [repo_get, hfind] at h
  | some t0 =>
    simp [repo_get, hfind] at h
    subst h
    refine ⟨List.mem_of_find?_eq_some hfind, ?_⟩
    have hp := List.find?_some (p := fun (r : Task) => r.task_id == task_id) hfind
    exact eq_of_beq hp

/-- Membership in the deserializer's output mapping: every forwarded entry
has a base-property key and carries the body's value for that key. -/
theorem mem_deser_output (body : Body) (k v : String)
    (h : (k, v) ∈ base_properties.filterMap fun k => (body.lookup k).map fun v => (k, v)) :
    k ∈ base_properties ∧ body.lookup k = some v := by
  rw [List.mem_filterMap] at h
  obtain ⟨a, ha, hmap⟩ := h
  cases hla : body.lookup a with
  | none => rw [hla] at hmap; simp at hmap
  | some w =>
    rw [hla] at hmap
    simp at hmap
    obtain ⟨rfl, rfl⟩ := hmap
    exact ⟨ha, hla⟩

/-- A repository `add` that succeeds found no record under the new id and
returns the store with the record appended, clock unchanged. -/
theorem repo_add_ok (ctx : Ctx) (t : Task) (st st1 : SvcState)
    (h : repo_add ctx t st = .ok st1) :
    st.repo.any (fun r => r.task_id == t.task_id) = false ∧
      st1.repo = st.repo ++ [t] ∧ st1.now = st.now := by
  cases hd : ctx.addDenial with
  | some msg => simp [repo_add, hd] at h
  | none =>
    cases hb : st.repo.any (fun r => r.task_id == t.task_id) with
    | true => simp [repo_add, hd, hb] at h
    | false =>
      simp [repo_add, hd, hb] at h
      exact ⟨rfl, by rw [← h], by rw [← h]⟩

/-- Every entry of a successfully deserialized mapping has a base-property
key and the body's value for it. -/
theorem deserializer_ok_entries (body m : Body)
    (h : deserializer_create (some body) = .ok m) :
    ∀ p ∈ m, p.1 ∈ base_properties ∧ body.lookup p.1 = some p.2 := by
  rw [deserializer_create_some] at h
  cases hfind : disallowed_properties.find? (fun k => (body.lookup k).isSome) with
  | some k0 => rw [hfind] at h; exact absurd h (by simp)
  | none =>
    rw [hfind] at h
    obtain rfl := (Except.ok.injEq _ _).mp h.symm
    intro p hp
    exact mem_deser_output body p.1 p.2 hp

/-! ## Claim theorems -/

/-- C8: for every create request whose parsed content contains no body, the
deserializer fails with `HTTPBadRequest("Body expected in request.")`, the
service state is untouched and no key validation or task construction runs
(the outcome is the same for every principal). -/
theorem create_requires_body (ctx : Ctx) (st : SvcState) :
    api_create ctx none st =
      (.error (.httpBadRequest "Body expected in request."), st) := rfl

/-- C2: a create request body holding any disallowed key (`direct_url`,
`self`, `file`, `schema`) fails with `HTTPForbidden` naming a disallowed key
as read-only, and the state is unchanged: no task is constructed or
persisted. -/
theorem create_disallowed_key_forbidden (ctx : Ctx) (st : SvcState) (body : Body)
    (h : ∃ k ∈ disallowed_properties, (body.lookup k).isSome = true) :
    ∃ k ∈ disallowed_properties, (body.lookup k).isSome = true ∧
      api_create ctx (some body) st =
        (.error (.httpForbidden ("Attribute \x27" ++ k ++ "\x27 is read-only.")), st) := by
  have hsome : (disallowed_properties.find? fun k => (body.lookup k).isSome).isSome = true := by
    rw [List.find?_isSome]
    exact h
  cases hfind : disallowed_properties.find? (fun k => (body.lookup k).isSome) with
  | none => rw [hfind] at hsome; simp at hsome
  | some k0 =>
    refine ⟨k0, List.mem_of_find?_eq_some hfind,
      List.find?_some (p := fun (k : String) => (body.lookup k).isSome) hfind, ?_⟩
    simp [api_create, deserializer_create_some, hfind]

/-- C2 witness: a body carrying `direct_url` is rejected with the read-only
`HTTPForbidden` and leaves the empty store empty. -/
theorem create_disallowed_key_forbidden_witness :
    ∃ k ∈ disallowed_properties, (([("direct_url", "http://x")] : Body).lookup k).isSome = true ∧
      api_create ⟨"alice", none, none⟩ (some [("direct_url", "http://x")]) ⟨[], 0, 0⟩ =
        (.error (.httpForbidden ("Attribute \x27" ++ k ++ "\x27 is read-only.")), ⟨[], 0, 0⟩) :=
  create_disallowed_key_forbidden ⟨"alice", none, none⟩ ⟨[], 0, 0⟩ _
    ⟨"direct_url", by decide, by decide⟩

/-- C9: with a body present, create-deserialization errors exactly when the
body holds one of the four disallowed keys; any other unknown key never
causes failure and is dropped from the output, and base keys absent from the
body are simply absent from the output. -/
theorem deserializer_error_iff_disallowed (body : Body) :
    ((∃ e, deserializer_create (some body) = .error e) ↔
      ∃ k ∈ disallowed_properties, (body.lookup k).isSome = true) ∧
    (∀ m, deserializer_create (some body) = .ok m →
      ∀ k, k ∉ base_properties → m.lookup k = none) ∧
    (∀ m, deserializer_create (some body) = .ok m →
      ∀ k, body.lookup k = none → m.lookup k = none) := by
  cases hfind : disallowed_properties.find? (fun k => (body.lookup k).isSome) with
  | some k0 =>
    refine ⟨⟨fun _ => ?_, fun _ => ?_⟩, fun m hm => ?_, fun m hm => ?_⟩
    · exact ⟨k0, List.mem_of_find?_eq_some hfind,
        List.find?_some (p := fun (k : String) => (body.lookup k).isSome) hfind⟩
    · exact ⟨.httpForbidden ("Attribute \x27" ++ k0 ++ "\x27 is read-only."),
        by simp [deserializer_create_some, hfind]⟩
    · rw [deserializer_create_some, hfind] at hm; exact absurd hm (by simp)
    · rw [deserializer_create_some, hfind] at hm; exact absurd hm (by simp)
  | none =>
    have hno : ∀ k ∈ disallowed_properties, ¬((body.lookup k).isSome = true) := by
      intro k hk
      have := List.find?_eq_none.mp hfind k hk
      simp at this
      simp [this]
    have hok : deserializer_create (some body) =
        .ok (base_properties.filterMap fun k => (body.lookup k).map fun v => (k, v)) := by
      rw [deserializer_create_some, hfind]
    refine ⟨⟨fun he => ?_, fun hk => ?_⟩, fun m hm k hk => ?_, fun m hm k hk => ?_⟩
    · obtain ⟨e, he⟩ := he
      rw [hok] at he
      exact absurd he (by simp)
    · obtain ⟨k, hk1, hk2⟩ := hk
      exact absurd hk2 (hno k hk1)
    · rw [hok] at hm
      obtain rfl := (Except.ok.injEq _ _).mp hm.symm
      refine lookup_eq_none_of_keys _ _ fun p hp => ?_
      intro hpk
      obtain ⟨hmem, _⟩ := mem_deser_output body p.1 p.2 hp
      exact hk (hpk ▸ hmem)
    · rw [hok] at hm
      obtain rfl := (Except.ok.injEq _ _).mp hm.symm
      refine lookup_eq_none_of_keys _ _ fun p hp => ?_
      intro hpk
      obtain ⟨_, hl⟩ := mem_deser_output body p.1 p.2 hp
      rw [hpk, hk] at hl
      exact Option.noConfusion hl

/-- C9 witness: a body with an unknown key `color` and no `owner`
deserializes successfully, dropping `color` and omitting `owner`. -/
theorem deserializer_error_iff_disallowed_witness :
    ((∃ e, deserializer_create (some [("type", "import"), ("color", "red")]) = .error e) ↔
      ∃ k ∈ disallowed_properties,
        (([("type", "import"), ("color", "red")] : Body).lookup k).isSome = true) ∧
    (∀ m, deserializer_create (some [("type", "import"), ("color", "red")]) = .ok m →
      ∀ k, k ∉ base_properties → m.lookup k = none) ∧
    (∀ m, deserializer_create (some [("type", "import"), ("color", "red")]) = .ok m →
      ∀ k, ([("type", "import"), ("color", "red")] : Body).lookup k = none →
        m.lookup k = none) :=
  deserializer_error_iff_disallowed [("type", "import"), ("color", "red")]

/-- C6: every entry of the mapping the deserializer forwards to the
controller has its key among `type`, `status`, `owner`, and carries the
body's own value for that key — every other body key is not forwarded. -/
theorem create_forwards_only_base_properties (body m : Body)
    (h : deserializer_create (some body) = .ok m) :
    ∀ k v, (k, v) ∈ m → k ∈ base_properties ∧ body.lookup k = some v := by
  rw [deserializer_create_some] at h
  cases hfind : disallowed_properties.find? (fun k => (body.lookup k).isSome) with
  | some k0 => rw [hfind] at h; exact absurd h (by simp)
  | none =>
    rw [hfind] at h
    obtain rfl := (Except.ok.injEq _ _).mp h.symm
    intro k v hkv
    exact mem_deser_output body k v hkv

/-- C6 witness: deserializing a body with `type`, an unknown `input` key and
`owner` forwards only base-property entries with the body's values. -/
theorem create_forwards_only_base_properties_witness :
    "type" ∈ base_properties ∧
      ([("type", "import"), ("input", "z"), ("owner", "alice")] : Body).lookup "type" =
        some "import" :=
  create_forwards_only_base_properties
    [("type", "import"), ("input", "z"), ("owner", "alice")] _ rfl "type" "import" (by decide)

/-- C1: on a create request whose body carries a `status` key, the
client-supplied status is ignored: whatever task the factory hands onward
for persistence starts at `queued` with the server-generated fresh id, and
erasing the `status` entry from the forwarded mapping does not change the
factory's output at all. -/
theorem create_ignores_client_status (ctx : Ctx) (st : SvcState) (body m : Body) (v : String)
    (hv : ("status", v) ∈ body) (hdes : deserializer_create (some body) = .ok m) :
    (∀ t, new_task ctx m st = .ok t → t.status = .queued ∧ t.task_id = st.nextId) ∧
      new_task ctx (m.filter fun p => p.1 != "status") st = new_task ctx m st := by
  constructor
  · intro t ht
    obtain ⟨h1, h2, _⟩ := new_task_ok ctx m st t ht
    exact ⟨h1, h2⟩
  · unfold new_task
    rw [lookup_filter_ne m "status" "type" (by decide),
      lookup_filter_ne m "status" "owner" (by decide)]

/-- C1 witness: a body demanding `status = success` still yields a `queued`
task with the generator's id 7, and the `status` entry is inert. -/
theorem create_ignores_client_status_witness :
    (∀ t, new_task ⟨"alice", none, none⟩ [("type", "import"), ("status", "success")]
        ⟨[], 7, 3⟩ = .ok t → t.status = .queued ∧ t.task_id = 7) ∧
      new_task ⟨"alice", none, none⟩
          (([("type", "import"), ("status", "success")] : Body).filter
            fun p => p.1 != "status") ⟨[], 7, 3⟩ =
        new_task ⟨"alice", none, none⟩ [("type", "import"), ("status", "success")] ⟨[], 7, 3⟩ :=
  create_ignores_client_status ⟨"alice", none, none⟩ ⟨[], 7, 3⟩
    [("type", "import"), ("status", "success")] _ "success" (by decide) rfl

/-- C3: the controller's create runs factory, `add`, `run()` in that order
and is atomic for the caller: a domain `Forbidden` is always surfaced as
`HTTPForbidden` (never raw), any error leaves the store exactly as it was
(the task fully absent), and success appends exactly one task that has
already gone through `run()` (status `processing`). -/
theorem controller_create_atomic (ctx : Ctx) (m : Body) (st : SvcState) :
    (∀ msg, (controller_create ctx m st).1 ≠ .error (.forbidden msg)) ∧
    (∀ e, (controller_create ctx m st).1 = .error e → (controller_create ctx m st).2 = st) ∧
    (∀ t, (controller_create ctx m st).1 = .ok t →
      t.status = .processing ∧ (controller_create ctx m st).2.repo = st.repo ++ [t]) := by
  cases hnt : new_task ctx m st with
  | error e =>
    have hctl : controller_create ctx m st = (.error (catch_forbidden e), st) := by
      simp only [controller_create, hnt]
    refine ⟨fun msg h => ?_, fun e' he' => ?_, fun t ht => ?_⟩
    · rw [hctl] at h
      exact catch_forbidden_ne e msg (by simpa using h)
    · rw [hctl]
    · rw [hctl] at ht
      exact absurd ht (by simp)
  | ok t0 =>
    obtain ⟨hq, hid, hmsg, hc, hu⟩ := new_task_ok ctx m st t0 hnt
    cases had : repo_add ctx t0 st with
    | error e =>
      have hctl : controller_create ctx m st = (.error (catch_forbidden e), st) := by
        simp only [controller_create, hnt, had]
      refine ⟨fun msg h => ?_, fun e' he' => ?_, fun t ht => ?_⟩
      · rw [hctl] at h
        exact catch_forbidden_ne e msg (by simpa using h)
      · rw [hctl]
      · rw [hctl] at ht
        exact absurd ht (by simp)
    | ok st1 =>
      obtain ⟨hany, hrepo1, hnow1⟩ := repo_add_ok ctx t0 st st1 had
      obtain ⟨t2, hrun, ht2id, ht2st⟩ : ∃ t2, task_run st1.now t0 = .ok t2 ∧
          t2.task_id = t0.task_id ∧ t2.status = .processing :=
        ⟨{ t0 with status := .processing, message := "", updated_at := st1.now },
          by rw [task_run, if_pos hq], rfl, rfl⟩
      have hctl : controller_create ctx m st = (.ok t2, repo_save st1 t2) := by
        simp only [controller_create, hnt, had, hrun]
      have hsave : (repo_save st1 t2).repo = st.repo ++ [t2] := by
        show st1.repo.map _ = _
        rw [hrepo1, List.map_append,
          map_replace_of_not_mem st.repo t2 (by rw [ht2id]; exact hany)]
        simp [ht2id]
      refine ⟨fun msg h => ?_, fun e' he' => ?_, fun t ht => ?_⟩
      · rw [hctl] at h
        exact absurd h (by simp)
      · rw [hctl] at he'
        exact absurd he' (by simp)
      · rw [hctl] at ht
        have ht' : Except.ok t2 = Except.ok t := ht
        obtain rfl := (Except.ok.injEq _ _).mp ht'
        rw [hctl]
        exact ⟨ht2st, hsave⟩

/-- C3 witness: creating an import task for alice on an empty store yields a
`processing` task appended to the store, and no raw `Forbidden` or partial
state is possible. -/
theorem controller_create_atomic_witness :
    (∀ msg, (controller_create ⟨"alice", none, none⟩ [("type", "import")]
        ⟨[], 0, 0⟩).1 ≠ .error (.forbidden msg)) ∧
    (∀ e, (controller_create ⟨"alice", none, none⟩ [("type", "import")] ⟨[], 0, 0⟩).1 = .error e →
      (controller_create ⟨"alice", none, none⟩ [("type", "import")] ⟨[], 0, 0⟩).2 = ⟨[], 0, 0⟩) ∧
    (∀ t, (controller_create ⟨"alice", none, none⟩ [("type", "import")] ⟨[], 0, 0⟩).1 = .ok t →
      t.status = .processing ∧
        (controller_create ⟨"alice", none, none⟩ [("type", "import")] ⟨[], 0, 0⟩).2.repo =
          ([] : List Task) ++ [t]) :=
  controller_create_atomic ⟨"alice", none, none⟩ [("type", "import")] ⟨[], 0, 0⟩

/-- C4: the controller's `kill` does `get`, then the cancellation transition,
then `save`, and returns the mutated task.  An unknown id surfaces the
repository's `NotFound` untouched; on a live task the cancellation is a
status transition to terminal `failure` — the record stays in the store
under its id, it is not deleted. -/
theorem controller_kill_cancels_not_deletes (st : SvcState) (task_id : Nat) :
    ((∀ r ∈ st.repo, r.task_id ≠ task_id) →
      controller_kill st task_id = (.error (.notFound "task not found"), st)) ∧
    (∀ t, repo_get st task_id = .ok t →
      (t.status = .queued ∨ t.status = .processing) →
      ∃ t2, task_remove st.now t = .ok t2 ∧
        controller_kill st task_id = (.ok t2, repo_save st t2) ∧
        t2.status = .failure ∧ t2.task_id = t.task_id ∧
        t2 ∈ (repo_save st t2).repo) := by
  constructor
  · intro hnone
    have hfind : st.repo.find? (fun r => r.task_id == task_id) = none := by
      rw [List.find?_eq_none]
      intro r hr
      simp [hnone r hr]
    have hget : repo_get st task_id = .error (.notFound "task not found") := by
      rw [repo_get, hfind]
    simp only [controller_kill, hget]
  · intro t hget hlive
    obtain ⟨hmem, htid⟩ := repo_get_ok st task_id t hget
    obtain ⟨t2, hrem, ht2id, ht2st⟩ : ∃ t2, task_remove st.now t = .ok t2 ∧
        t2.task_id = t.task_id ∧ t2.status = .failure :=
      ⟨{ t with status := .failure, message := "task cancelled", updated_at := st.now },
        by rw [task_remove, if_pos hlive], rfl, rfl⟩
    refine ⟨t2, hrem, ?_, ht2st, ht2id, ?_⟩
    · simp only [controller_kill, hget, hrem]
    · have hfun : (if t.task_id == t2.task_id then t2 else t) = t2 := by
        simp [ht2id]
      have hin := List.mem_map_of_mem (fun r => if r.task_id == t2.task_id then t2 else r) hmem
      simp only [] at hin
      rw [hfun] at hin
      exact hin

/-- C4 witness: killing the queued task with id 5 in a one-task store
surfaces the cancelled task, saved in place; killing id 9 in that store is
`NotFound` and changes nothing. -/
theorem controller_kill_cancels_not_deletes_witness :
    ((∀ r ∈ (⟨[⟨5, "import", .queued, "alice", "", 1, 1⟩], 6, 4⟩ : SvcState).repo,
        r.task_id ≠ 9) →
      controller_kill ⟨[⟨5, "import", .queued, "alice", "", 1, 1⟩], 6, 4⟩ 9 =
        (.error (.notFound "task not found"),
          ⟨[⟨5, "import", .queued, "alice", "", 1, 1⟩], 6, 4⟩)) ∧
    (∀ t, repo_get ⟨[⟨5, "import", .queued, "alice", "", 1, 1⟩], 6, 4⟩ 9 = .ok t →
      (t.status = .queued ∨ t.status = .processing) →
      ∃ t2, task_remove (⟨[⟨5, "import", .queued, "alice", "", 1, 1⟩], 6, 4⟩ : SvcState).now t
          = .ok t2 ∧
        controller_kill ⟨[⟨5, "import", .queued, "alice", "", 1, 1⟩], 6, 4⟩ 9 =
          (.ok t2, repo_save ⟨[⟨5, "import", .queued, "alice", "", 1, 1⟩], 6, 4⟩ t2) ∧
        t2.status = .failure ∧ t2.task_id = t.task_id ∧
        t2 ∈ (repo_save ⟨[⟨5, "import", .queued, "alice", "", 1, 1⟩], 6, 4⟩ t2).repo) ∧
    (∀ t, repo_get ⟨[⟨5, "import", .queued, "alice", "", 1, 1⟩], 6, 4⟩ 5 = .ok t →
      (t.status = .queued ∨ t.status = .processing) →
      ∃ t2, task_remove (⟨[⟨5, "import", .queued, "alice", "", 1, 1⟩], 6, 4⟩ : SvcState).now t
          = .ok t2 ∧
        controller_kill ⟨[⟨5, "import", .queued, "alice", "", 1, 1⟩], 6, 4⟩ 5 =
          (.ok t2, repo_save ⟨[⟨5, "import", .queued, "alice", "", 1, 1⟩], 6, 4⟩ t2) ∧
        t2.status = .failure ∧ t2.task_id = t.task_id ∧
        t2 ∈ (repo_save ⟨[⟨5, "import", .queued, "alice", "", 1, 1⟩], 6, 4⟩ t2).repo) :=
  ⟨(controller_kill_cancels_not_deletes
      ⟨[⟨5, "import", .queued, "alice", "", 1, 1⟩], 6, 4⟩ 9).1,
    (controller_kill_cancels_not_deletes
      ⟨[⟨5, "import", .queued, "alice", "", 1, 1⟩], 6, 4⟩ 9).2,
    (controller_kill_cancels_not_deletes
      ⟨[⟨5, "import", .queued, "alice", "", 1, 1⟩], 6, 4⟩ 5).2⟩

/-- C5: the serialized task view carries exactly the keys `type, status,
owner, message, id, created_at, updated_at` plus the `schema` link, with the
timestamps rendered through the ISO-8601 renderer; and the deserializer
never forwards a client-supplied `id`, `created_at` or `updated_at`. -/
theorem task_view_contract (t : Task) (body m : Body)
    (hdes : deserializer_create (some body) = .ok m) :
    (format_task t).map Prod.fst =
      ["type", "status", "owner", "message", "id", "created_at", "updated_at", "schema"] ∧
    (format_task t).lookup "created_at" = some (isotime t.created_at) ∧
    (format_task t).lookup "updated_at" = some (isotime t.updated_at) ∧
    m.lookup "id" = none ∧ m.lookup "created_at" = none ∧ m.lookup "updated_at" = none := by
  have hbase : ∀ p ∈ m, p.1 ∈ base_properties ∧ body.lookup p.1 = some p.2 :=
    deserializer_ok_entries body m hdes
  have hnone : ∀ k : String, k ∉ base_properties → m.lookup k = none := by
    intro k hk
    refine lookup_eq_none_of_keys m k fun p hp hpk => ?_
    exact hk (hpk ▸ (hbase p hp).1)
  exact ⟨rfl, rfl, rfl, hnone "id" (by decide), hnone "created_at" (by decide),
    hnone "updated_at" (by decide)⟩

/-- C5 witness: the view of a concrete failed task, and the deserialization
of a body that tries to smuggle `id` and `created_at`, which are not
forwarded. -/
theorem task_view_contract_witness :
    (format_task ⟨3, "export", .failure, "bob", "disk full", 10, 20⟩).map Prod.fst =
      ["type", "status", "owner", "message", "id", "created_at", "updated_at", "schema"] ∧
    (format_task ⟨3, "export", .failure, "bob", "disk full", 10, 20⟩).lookup "created_at" =
      some (isotime 10) ∧
    (format_task ⟨3, "export", .failure, "bob", "disk full", 10, 20⟩).lookup "updated_at" =
      some (isotime 20) ∧
    (([("type", "export"), ("owner", "bob")] : Body).lookup "id" = none) ∧
    (([("type", "export"), ("owner", "bob")] : Body).lookup "created_at" = none) ∧
    (([("type", "export"), ("owner", "bob")] : Body).lookup "updated_at" = none) :=
  task_view_contract ⟨3, "export", .failure, "bob", "disk full", 10, 20⟩
    [("type", "export"), ("id", "42"), ("created_at", "yesterday"), ("owner", "bob")] _ rfl

/-- C7 counterexample: the `except Forbidden` clause re-raises
`HTTPForbidden(explanation=unicode(e))`, so the surfaced client error does
carry the denial's own reason text: two policy denials differing only in
their internal reason surface as two different errors, each exposing its
reason verbatim. -/
theorem forbidden_explanation_carries_detail :
    (controller_create ⟨"alice", some "policy rule tasks_create denied for project X", none⟩
        [("type", "import")] ⟨[], 0, 0⟩).1 =
      .error (.httpForbidden "policy rule tasks_create denied for project X") ∧
    (controller_create ⟨"alice", some "quota exceeded", none⟩
        [("type", "import")] ⟨[], 0, 0⟩).1 =
      .error (.httpForbidden "quota exceeded") ∧
    ("policy rule tasks_create denied for project X" : String) ≠ "quota exceeded" :=
  ⟨rfl, rfl, by decide⟩

/-- C7 amended: whenever a policy denial (`Forbidden`) occurs during create,
the surfaced error is the client error `HTTPForbidden` whose explanation is
exactly the `Forbidden` exception's own message — the denial reason is
forwarded, not suppressed — and the store is left unchanged. -/
theorem forbidden_surfaced_with_message (ctx : Ctx) (m : Body) (st : SvcState) (msg : String)
    (h : ctx.createDenial = some msg ∨
      (ctx.addDenial = some msg ∧ ∃ t, new_task ctx m st = .ok t)) :
    (controller_create ctx m st).1 = .error (.httpForbidden msg) ∧
      (controller_create ctx m st).2 = st := by
  rcases h with hd | ⟨hd, t, hnt⟩
  · have hnt : new_task ctx m st = .error (.forbidden msg) := by
      rw [new_task, hd]
    constructor <;> simp only [controller_create, hnt, catch_forbidden]
  · have hadd : repo_add ctx t st = .error (.forbidden msg) := by
      rw [repo_add, hd]
    constructor <;> simp only [controller_create, hnt, hadd, catch_forbidden]

/-- C7 amended witness: a concrete denial with reason text
`"role viewer may not create tasks"` surfaces as `HTTPForbidden` with that
very text, on an untouched empty store. -/
theorem forbidden_surfaced_with_message_witness :
    (controller_create ⟨"alice", some "role viewer may not create tasks", none⟩
        [("type", "import")] ⟨[], 0, 0⟩).1 =
      .error (.httpForbidden "role viewer may not create tasks") ∧
    (controller_create ⟨"alice", some "role viewer may not create tasks", none⟩
        [("type", "import")] ⟨[], 0, 0⟩).2 = ⟨[], 0, 0⟩ :=
  forbidden_surfaced_with_message ⟨"alice", some "role viewer may not create tasks", none⟩
    [("type", "import")] ⟨[], 0, 0⟩ "role viewer may not create tasks" (Or.inl rfl)

/-- C10: for any task the serializer's create response carries the very same
body and content type as its get response, and create additionally sets the
HTTP status to 201. -/
theorem serializer_create_eq_get (resp : HttpResponse) (t : Task) :
    (serializer_create resp t).unicode_body = (serializer_get resp t).unicode_body ∧
    (serializer_create resp t).content_type = (serializer_get resp t).content_type ∧
    (serializer_create resp t).status_int = 201 :=
  ⟨rfl, rfl, rfl⟩

end Glance
